import Mathlib

/-!
Shallow embedding of the crazyradio-rs USB radio driver core (`src/lib.rs`).

Modelling conventions:

* USB transfers are modelled by explicit outcome parameters: every operation
  takes the outcome of each transfer it may issue (`Except RusbError Unit` for
  control/bulk writes, `Except RusbError (List Nat)` for the bulk read, the
  list being the bytes the device stored in the 33-byte receive buffer) and
  returns, next to its Rust result, the list of transfers it issued.
* Machine integers (`u8`, `u16`, `usize`) are modelled as `Nat`.  Where the
  source can overflow (`x - 1` on an unsigned integer), the model returns the
  dedicated outcome `PanicOr.panics`, matching Rust's checked-arithmetic
  semantics for a detected overflow.
* `Duration` arguments are modelled by their whole-millisecond value, which is
  what `as_millis` extracts and the only precision the driver uses.
* Slice indexing and `copy_from_slice` are modelled by `Option`-returning
  helpers whose `none` case (out-of-bounds / length mismatch) is mapped to
  `PanicOr.panics`, exactly the situations in which the Rust code would panic.
-/

deriving instance DecidableEq for Except

namespace CR

/-- Abstract stand-in for `rusb::Error`: an opaque transport-layer error. -/
structure RusbError where
  code : Nat
deriving DecidableEq

/-- The crate's `Error` enum. -/
inductive Error
  | UsbError (e : RusbError)
  | NotFound
  | InvalidArgument
  | DongleVersionNotSupported
deriving DecidableEq

/-- Radio channel, `struct Channel(u8)`. -/
structure Channel where
  val : Nat
deriving DecidableEq

/-- The crate's `Channel::from_number`: values below 126 are accepted, others
are rejected with `Error::InvalidArgument`. -/
def Channel.from_number (channel : Nat) : Except Error Channel :=
  if channel < 126 then .ok ⟨channel⟩ else .error .InvalidArgument

/-- Radio datarate, ordinal-encoded 0/1/2 (`enum Datarate`). -/
inductive Datarate
  | Dr250K
  | Dr1M
  | Dr2M
deriving DecidableEq

/-- Discriminant of `Datarate` (`datarate as u16`). -/
def Datarate.toNat : Datarate → Nat
  | .Dr250K => 0
  | .Dr1M => 1
  | .Dr2M => 2

/-- Radio transmit power, ordinal-encoded 0..3 (`enum Power`). -/
inductive Power
  | Pm18dBm
  | Pm12dBm
  | Pm6dBm
  | P0dBm
deriving DecidableEq

/-- Discriminant of `Power` (`power as u16`). -/
def Power.toNat : Power → Nat
  | .Pm18dBm => 0
  | .Pm12dBm => 1
  | .Pm6dBm => 2
  | .P0dBm => 3

/-- The fixed command-code table (`enum UsbCommand`). -/
inductive UsbCommand
  | SetRadioChannel
  | SetRadioAddress
  | SetDataRate
  | SetRadioPower
  | SetRadioArd
  | SetRadioArc
  | AckEnable
  | SetContCarrier
  | LaunchBootloader
deriving DecidableEq

/-- Discriminants of `UsbCommand`. -/
def UsbCommand.toNat : UsbCommand → Nat
  | .SetRadioChannel => 0x01
  | .SetRadioAddress => 0x02
  | .SetDataRate => 0x03
  | .SetRadioPower => 0x04
  | .SetRadioArd => 0x05
  | .SetRadioArc => 0x06
  | .AckEnable => 0x10
  | .SetContCarrier => 0x20
  | .LaunchBootloader => 0xff

/-- One USB transfer issued by the driver, as observable at the `rusb` API
boundary (`write_control`, `write_bulk`, `read_bulk`). -/
inductive Transfer
  | control (requestType request value index : Nat) (data : List Nat)
  | bulkWrite (endpoint : Nat) (data : List Nat)
  | bulkRead (endpoint : Nat)
deriving DecidableEq

/-- Outcome of an operation that can panic (checked integer overflow, slice
bound violation) instead of returning. -/
inductive PanicOr (α : Type)
  | panics
  | ret (a : α)
deriving DecidableEq

/-- Ack status of a sent packet (`struct Ack`). -/
structure Ack where
  received : Bool
  power_detector : Bool
  retry : Nat
  length : Nat
deriving DecidableEq

/-- The driver state: the settings-cache part of `struct Crazyradio` (the USB
handles live in the transport layer and are modelled by the explicit transfer
outcomes). -/
structure Crazyradio where
  cache_settings : Bool
  channel : Channel
  address : List Nat
  datarate : Datarate
deriving DecidableEq

/-- The crate's `Crazyradio::set_channel`.  `res` is the outcome the transport
would give to the control transfer, were it issued. -/
def Crazyradio.set_channel (res : Except RusbError Unit) (st : Crazyradio)
    (channel : Channel) : Except Error Unit × Crazyradio × List Transfer :=
  if !st.cache_settings || st.channel != channel then
    match res with
    | .ok _ =>
        (.ok (), { st with channel := channel },
          [.control 0x40 UsbCommand.SetRadioChannel.toNat channel.val 0 []])
    | .error e =>
        (.error (.UsbError e), st,
          [.control 0x40 UsbCommand.SetRadioChannel.toNat channel.val 0 []])
  else
    (.ok (), st, [])

/-- The crate's `Crazyradio::set_datarate`. -/
def Crazyradio.set_datarate (res : Except RusbError Unit) (st : Crazyradio)
    (datarate : Datarate) : Except Error Unit × Crazyradio × List Transfer :=
  if !st.cache_settings || st.datarate != datarate then
    match res with
    | .ok _ =>
        (.ok (), { st with datarate := datarate },
          [.control 0x40 UsbCommand.SetDataRate.toNat datarate.toNat 0 []])
    | .error e =>
        (.error (.UsbError e), st,
          [.control 0x40 UsbCommand.SetDataRate.toNat datarate.toNat 0 []])
  else
    (.ok (), st, [])

/-- The crate's `Crazyradio::set_address`; the five address bytes travel as the
transfer's data payload and the cache is updated by `copy_from_slice`. -/
def Crazyradio.set_address (res : Except RusbError Unit) (st : Crazyradio)
    (address : List Nat) : Except Error Unit × Crazyradio × List Transfer :=
  if !st.cache_settings || st.address != address then
    match res with
    | .ok _ =>
        (.ok (), { st with address := address },
          [.control 0x40 UsbCommand.SetRadioAddress.toNat 0 0 address])
    | .error e =>
        (.error (.UsbError e), st,
          [.control 0x40 UsbCommand.SetRadioAddress.toNat 0 0 address])
  else
    (.ok (), st, [])

/-- The crate's `Crazyradio::set_power` (uncached: always writes). -/
def Crazyradio.set_power (res : Except RusbError Unit) (st : Crazyradio)
    (power : Power) : Except Error Unit × Crazyradio × List Transfer :=
  match res with
  | .ok _ =>
      (.ok (), st, [.control 0x40 UsbCommand.SetRadioPower.toNat power.toNat 0 []])
  | .error e =>
      (.error (.UsbError e), st,
        [.control 0x40 UsbCommand.SetRadioPower.toNat power.toNat 0 []])

/-- The crate's `Crazyradio::set_cont_carrier` (uncached: always writes). -/
def Crazyradio.set_cont_carrier (res : Except RusbError Unit) (st : Crazyradio)
    (enable : Bool) : Except Error Unit × Crazyradio × List Transfer :=
  match res with
  | .ok _ =>
      (.ok (), st,
        [.control 0x40 UsbCommand.SetContCarrier.toNat enable.toNat 0 []])
  | .error e =>
      (.error (.UsbError e), st,
        [.control 0x40 UsbCommand.SetContCarrier.toNat enable.toNat 0 []])

/-- The crate's `Crazyradio::set_ack_enable` (uncached: always writes). -/
def Crazyradio.set_ack_enable (res : Except RusbError Unit) (st : Crazyradio)
    (ack_enable : Bool) : Except Error Unit × Crazyradio × List Transfer :=
  match res with
  | .ok _ =>
      (.ok (), st,
        [.control 0x40 UsbCommand.AckEnable.toNat ack_enable.toNat 0 []])
  | .error e =>
      (.error (.UsbError e), st,
        [.control 0x40 UsbCommand.AckEnable.toNat ack_enable.toNat 0 []])

/-- The crate's `Crazyradio::set_arc`: counts above 15 are rejected before any
transfer. -/
def Crazyradio.set_arc (res : Except RusbError Unit) (st : Crazyradio)
    (arc : Nat) : Except Error Unit × Crazyradio × List Transfer :=
  if arc ≤ 15 then
    match res with
    | .ok _ =>
        (.ok (), st, [.control 0x40 UsbCommand.SetRadioArc.toNat arc 0 []])
    | .error e =>
        (.error (.UsbError e), st,
          [.control 0x40 UsbCommand.SetRadioArc.toNat arc 0 []])
  else
    (.error .InvalidArgument, st, [])

/-- The crate's `Crazyradio::set_ard_bytes`: lengths above 32 are rejected
before any transfer, otherwise the register value is `0x80 | nbytes`. -/
def Crazyradio.set_ard_bytes (res : Except RusbError Unit) (st : Crazyradio)
    (nbytes : Nat) : Except Error Unit × Crazyradio × List Transfer :=
  if nbytes ≤ 32 then
    match res with
    | .ok _ =>
        (.ok (), st,
          [.control 0x40 UsbCommand.SetRadioArd.toNat (0x80 ||| nbytes) 0 []])
    | .error e =>
        (.error (.UsbError e), st,
          [.control 0x40 UsbCommand.SetRadioArd.toNat (0x80 ||| nbytes) 0 []])
  else
    (.error .InvalidArgument, st, [])

/-- The crate's `Crazyradio::set_ard_time`.  `delay_ms` is the requested
duration in whole milliseconds.  For `delay_ms ≤ 4000` the source computes
`(delay.as_millis() as u16 / 250) - 1` on `u16`: when `delay_ms < 250` the
quotient is 0 and the subtraction underflows, which checked arithmetic turns
into a panic before any transfer is issued. -/
def Crazyradio.set_ard_time (res : Except RusbError Unit) (delay_ms : Nat) :
    PanicOr (Except Error Unit × List Transfer) :=
  if delay_ms ≤ 4000 then
    if delay_ms / 250 = 0 then
      .panics
    else
      match res with
      | .ok _ =>
          .ret (.ok (),
            [.control 0x40 UsbCommand.SetRadioArd.toNat (delay_ms / 250 - 1) 0 []])
      | .error e =>
          .ret (.error (.UsbError e),
            [.control 0x40 UsbCommand.SetRadioArd.toNat (delay_ms / 250 - 1) 0 []])
  else
    .ret (.error .InvalidArgument, [])

/-- Transfers issued by a `set_ard_time` call (none when it panics). -/
def ard_trace : PanicOr (Except Error Unit × List Transfer) → List Transfer
  | .panics => []
  | .ret (_, tr) => tr

/-- Contents of the local `received_data` buffer of `send_packet`: 33 bytes,
zero-initialised, whose first `bytes.length` entries were stored by the bulk
read. -/
def received_buffer (bytes : List Nat) : List Nat :=
  (bytes ++ List.replicate 33 0).take 33

/-- Rust slice indexing `l[a..b]`: `none` models the out-of-range panic. -/
def slice (l : List Nat) (a b : Nat) : Option (List Nat) :=
  if a ≤ b ∧ b ≤ l.length then some ((l.drop a).take (b - a)) else none

/-- Rust `copy_from_slice`: replaces `dst` by `src` when the lengths agree,
`none` models the length-mismatch panic. -/
def copy_from_slice (dst src : List Nat) : Option (List Nat) :=
  if dst.length = src.length then some src else none

/-- The crate's `Crazyradio::send_packet`.  `writeRes` is the outcome of the
outbound bulk write, `readRes` the outcome of the inbound bulk read (the bytes
the device stored into the 33-byte buffer), `data` the payload and `ack_data`
the caller's buffer.  Returns the Rust result, the caller's buffer after the
copy, and the issued transfers.  `Ack.length` is `received - 1` on `usize`:
a zero-byte read underflows, hence panics. -/
def Crazyradio.send_packet (writeRes : Except RusbError Unit)
    (readRes : Except RusbError (List Nat)) (data ack_data : List Nat) :
    PanicOr (Except Error Ack × List Nat × List Transfer) :=
  match writeRes with
  | .error e => .ret (.error (.UsbError e), ack_data, [.bulkWrite 0x01 data])
  | .ok _ =>
    match readRes with
    | .error e =>
        .ret (.error (.UsbError e), ack_data, [.bulkWrite 0x01 data, .bulkRead 0x81])
    | .ok bytes =>
      let received := bytes.length
      let received_data := received_buffer bytes
      let copied : Option (List Nat) :=
        if ack_data.length ≤ 32 then
          match slice received_data 1 (ack_data.length + 1) with
          | some src => copy_from_slice ack_data src
          | none => none
        else
          match slice received_data 1 33 with
          | some src =>
            match copy_from_slice (ack_data.take 32) src with
            | some front => some (front ++ ack_data.drop 32)
            | none => none
          | none => none
      match copied with
      | none => .panics
      | some newBuf =>
        if received = 0 then
          .panics
        else
          .ret (.ok
            { received := (received_data.getD 0 0 &&& 0x01) != 0
              power_detector := (received_data.getD 0 0 &&& 0x02) != 0
              retry := (received_data.getD 0 0 &&& 0xf0) >>> 4
              length := received - 1 },
            newBuf, [.bulkWrite 0x01 data, .bulkRead 0x81])

/-- Projection on a `send_packet` outcome: the returned `Ack`, if any. -/
def ackOf : PanicOr (Except Error Ack × List Nat × List Transfer) → Option Ack
  | .ret (.ok a, _, _) => some a
  | _ => none

/-- Outcomes the transport gives to the transfers of the `i`-th scan
iteration: the set-channel control write, the bulk write and the bulk read. -/
structure ScanEnv where
  setRes : Nat → Except RusbError Unit
  writeRes : Nat → Except RusbError Unit
  readRes : Nat → Except RusbError (List Nat)

/-- Whether a bulk-read outcome decodes to an ack with `received = true`
(bit 0 of the status byte). -/
def ackBit : Except RusbError (List Nat) → Bool
  | .ok (s :: _) => (s &&& 0x01) != 0
  | _ => false

/-- One entry per call the scan loop body makes. -/
inductive ScanCall
  | setChannelCall (ch : Nat)
  | sendPacketCall
deriving DecidableEq

/-- The call pairs the scan loop makes over `fuel` consecutive channels
starting at `ch`: one `set_channel` call followed by one `send_packet` call
per channel, in ascending channel order. -/
def scan_calls : Nat → Nat → List ScanCall
  | _, 0 => []
  | ch, fuel + 1 =>
      .setChannelCall ch :: .sendPacketCall :: scan_calls (ch + 1) fuel

/-- The channels the scan loop records over `fuel` consecutive channels
starting at `ch`, iteration outcomes taken from `reads`: channel `ch + j` is
kept exactly when the `j`-th bulk read decodes to an ack with
`received = true`. -/
def scan_hits (reads : Nat → Except RusbError (List Nat)) : Nat → Nat → Nat → List Channel
  | _, _, 0 => []
  | ch, i, fuel + 1 =>
      if ackBit (reads i) then ⟨ch⟩ :: scan_hits reads (ch + 1) (i + 1) fuel
      else scan_hits reads (ch + 1) (i + 1) fuel

/-- Body of the crate's `scan_channels` loop (`for ch in start.0..stop.0 + 1`),
unrolled on the remaining iteration count `fuel`; `i` numbers the iterations
for the transport outcomes, `buf` is the reused 32-byte `ack_data` buffer.
The `Channel::from_number(ch).unwrap()` panics when `from_number` rejects. -/
def Crazyradio.scan_from (env : ScanEnv) (st : Crazyradio) (packet : List Nat)
    (buf : List Nat) (ch fuel i : Nat) :
    PanicOr (Except Error (List Channel) × Crazyradio × List Transfer × List ScanCall) :=
  match fuel with
  | 0 => .ret (.ok [], st, [], [])
  | fuel' + 1 =>
    match Channel.from_number ch with
    | .error _ => .panics
    | .ok channel =>
      match Crazyradio.set_channel (env.setRes i) st channel with
      | (.error e, st1, tr1) =>
          .ret (.error e, st1, tr1, [.setChannelCall ch])
      | (.ok _, st1, tr1) =>
        match Crazyradio.send_packet (env.writeRes i) (env.readRes i) packet buf with
        | .panics => .panics
        | .ret (.error e, _, tr2) =>
            .ret (.error e, st1, tr1 ++ tr2, [.setChannelCall ch, .sendPacketCall])
        | .ret (.ok ack, buf', tr2) =>
          match Crazyradio.scan_from env st1 packet buf' (ch + 1) fuel' (i + 1) with
          | .panics => .panics
          | .ret (.error e, st2, tr3, calls) =>
              .ret (.error e, st2, tr1 ++ tr2 ++ tr3,
                .setChannelCall ch :: .sendPacketCall :: calls)
          | .ret (.ok rest, st2, tr3, calls) =>
              .ret (.ok (if ack.received then channel :: rest else rest), st2,
                tr1 ++ tr2 ++ tr3, .setChannelCall ch :: .sendPacketCall :: calls)

/-- The crate's `Crazyradio::scan_channels`: probes every channel of the
inclusive range `start..=stop` with a fresh zeroed 32-byte ack buffer. -/
def Crazyradio.scan_channels (env : ScanEnv) (st : Crazyradio)
    (start stop : Channel) (packet : List Nat) :
    PanicOr (Except Error (List Channel) × Crazyradio × List Transfer × List ScanCall) :=
  Crazyradio.scan_from env st packet (List.replicate 32 0) start.val
    (stop.val + 1 - start.val) 0

/-- Sequencing of two state-and-trace steps with `?`-style short-circuit on
the first error. -/
def andThen (prev : Except Error Unit × Crazyradio × List Transfer)
    (f : Crazyradio → Except Error Unit × Crazyradio × List Transfer) :
    Except Error Unit × Crazyradio × List Transfer :=
  match prev with
  | (.ok _, st, tr) =>
    match f st with
    | (r, st', tr') => (r, st', tr ++ tr')
  | e => e

/-- The crate's `Crazyradio::reset`: saves the cache flag, forces it to
`false`, issues the eight boot-default writes (each `?`-propagated), and
restores the flag only after all eight succeeded.  `env k` is the outcome of
the `k`-th control transfer; with the cache disabled every setter writes, so
the eight writes consume `env 0` … `env 7` in order. -/
def Crazyradio.reset (env : Nat → Except RusbError Unit) (st : Crazyradio) :
    Except Error Unit × Crazyradio × List Transfer :=
  let r :=
    andThen (andThen (andThen (andThen (andThen (andThen (andThen
      (Crazyradio.set_datarate (env 0) { st with cache_settings := false } .Dr2M)
      (fun s => Crazyradio.set_channel (env 1) s ⟨2⟩))
      (fun s => Crazyradio.set_cont_carrier (env 2) s false))
      (fun s => Crazyradio.set_address (env 3) s [0xe7, 0xe7, 0xe7, 0xe7, 0xe7]))
      (fun s => Crazyradio.set_power (env 4) s .P0dBm))
      (fun s => Crazyradio.set_arc (env 5) s 3))
      (fun s => Crazyradio.set_ard_bytes (env 6) s 32))
      (fun s => Crazyradio.set_ack_enable (env 7) s true)
  match r with
  | (.ok _, st', tr) => (.ok (), { st' with cache_settings := st.cache_settings }, tr)
  | e => e

/-- Outcome of `find_crazyradio`: a matching dongle was found, none matched
(`Error::NotFound`), or the USB enumeration itself failed. -/
inductive FindOutcome
  | found
  | notFound
  | usbFail (e : RusbError)
deriving DecidableEq

/-- Transport outcomes an `open_generic` run consumes, in source order:
`find_crazyradio`, `device_descriptor()`, `device.open()`,
`claim_interface(0)`, then the device version read from the descriptor and
the outcomes of the eight `reset` writes. -/
structure OpenEnv where
  findResult : FindOutcome
  descResult : Except RusbError Unit
  openResult : Except RusbError Unit
  claimResult : Except RusbError Unit
  major : Nat
  minor : Nat
  subMinor : Nat
  resetEnv : Nat → Except RusbError Unit

/-- The version number `open_generic` compares against 0.5:
`major + minor/10 + sub_minor/100`, in exact rational arithmetic.  The source
computes this in `f64`; for every representable descriptor version
(`major ≤ 255`, nibble-valued `minor, sub_minor ≤ 15`) the `f64` rounding
never crosses the `< 0.5` threshold (the one borderline value, 0 + 4/10 +
10/100, rounds to exactly 0.5 in `f64` and compares equal on both sides), so
the rational comparison and the source's comparison agree. -/
def version_value (major minor subMinor : Nat) : ℚ :=
  (major : ℚ) + (minor : ℚ) / 10 + (subMinor : ℚ) / 100

/-- The driver state `open_generic` constructs before calling `reset`:
caching enabled, channel 2, address five 0xe7 bytes, datarate 2 Mbps. -/
def boot_state : Crazyradio :=
  { cache_settings := true
    channel := ⟨2⟩
    address := [0xe7, 0xe7, 0xe7, 0xe7, 0xe7]
    datarate := .Dr2M }

/-- The crate's `Crazyradio::open_generic`: find the dongle, open and claim
it, reject versions below 0.5 with `DongleVersionNotSupported`, then build
the initial state and reset it to boot values. -/
def Crazyradio.open_generic (env : OpenEnv) : Except Error Crazyradio :=
  match env.findResult with
  | .notFound => .error .NotFound
  | .usbFail e => .error (.UsbError e)
  | .found =>
    match env.descResult with
    | .error e => .error (.UsbError e)
    | .ok _ =>
      match env.openResult with
      | .error e => .error (.UsbError e)
      | .ok _ =>
        match env.claimResult with
        | .error e => .error (.UsbError e)
        | .ok _ =>
          if version_value env.major env.minor env.subMinor < 1 / 2 then
            .error .DongleVersionNotSupported
          else
            match Crazyradio.reset env.resetEnv boot_state with
            | (.ok _, cr, _) => .ok cr
            | (.error e, _, _) => .error e

/-- The crate's `Crazyradio::open_nth`: delegates to `open_generic` with an
ordinal filter (the filter lives inside `find_crazyradio`, abstracted by
`env.findResult`). -/
def Crazyradio.open_nth (env : OpenEnv) (nth : Nat) : Except Error Crazyradio :=
  Crazyradio.open_generic env

/-- The crate's `Crazyradio::open_first`: `open_nth(0)`. -/
def Crazyradio.open_first (env : OpenEnv) : Except Error Crazyradio :=
  Crazyradio.open_nth env 0

/-- The crate's `Crazyradio::open_by_serial`: delegates to `open_generic`
with a serial filter (abstracted by `env.findResult`). -/
def Crazyradio.open_by_serial (env : OpenEnv) (serial : String) : Except Error Crazyradio :=
  Crazyradio.open_generic env

lemma received_buffer_length (bytes : List Nat) : (received_buffer bytes).length = 33 := by
  simp [received_buffer]

lemma received_buffer_cons (b : Nat) (t : List Nat) :
    received_buffer (b :: t) = b :: (t ++ List.replicate 33 0).take 32 := by
  simp [received_buffer]

/-- Evaluation of `send_packet` on a successful write and a read of at least
one byte: no panic, status bits decoded from the first byte, `length` is the
read count minus one, and the caller's buffer receives the first
`min buf.length 32` payload bytes while its tail beyond index 32 is kept. -/
lemma send_packet_cons_eq (b : Nat) (t data buf : List Nat) :
    Crazyradio.send_packet (.ok ()) (.ok (b :: t)) data buf =
      .ret (.ok { received := (b &&& 0x01) != 0
                  power_detector := (b &&& 0x02) != 0
                  retry := (b &&& 0xf0) >>> 4
                  length := t.length },
        ((received_buffer (b :: t)).drop 1).take (min buf.length 32) ++ buf.drop 32,
        [.bulkWrite 0x01 data, .bulkRead 0x81]) := by
  have h33 := received_buffer_length (b :: t)
  have hg : (received_buffer (b :: t)).getD 0 0 = b := by
    rw [received_buffer_cons]; rfl
  unfold Crazyradio.send_packet
  by_cases h : buf.length ≤ 32
  · have hsl : slice (received_buffer (b :: t)) 1 (buf.length + 1) =
        some (((received_buffer (b :: t)).drop 1).take buf.length) := by
      rw [slice, if_pos (by omega)]
      simp
    have hlen : (((received_buffer (b :: t)).drop 1).take buf.length).length = buf.length := by
      rw [List.length_take, List.length_drop, h33]; omega
    have hdrop : buf.drop 32 = [] := List.drop_eq_nil_of_le (by omega)
    simp only [if_pos h, hsl, copy_from_slice, hlen, if_pos rfl, hg, hdrop,
      List.append_nil, List.length_cons, min_eq_left h]
    simp
  · have hsl : slice (received_buffer (b :: t)) 1 33 =
        some (((received_buffer (b :: t)).drop 1).take 32) := by
      rw [slice, if_pos (by omega)]
    have hlen : (((received_buffer (b :: t)).drop 1).take 32).length = 32 := by
      rw [List.length_take, List.length_drop, h33]; omega
    have htk : (buf.take 32).length = 32 := by
      rw [List.length_take]; omega
    simp only [if_neg h, hsl, copy_from_slice, htk, hlen, if_pos rfl, hg,
      List.length_cons, min_eq_right (le_of_not_le h)]
    simp

/-- C8: Channel construction succeeds for every integer value in 0..125 and
fails with InvalidArgument for every value 126 and above. -/
theorem channel_from_number_range (n : Nat) :
    (n < 126 → Channel.from_number n = .ok ⟨n⟩) ∧
    (126 ≤ n → Channel.from_number n = .error .InvalidArgument) := by
  constructor
  · intro h
    simp [Channel.from_number, h]
  · intro h
    rw [Channel.from_number, if_neg (by omega)]

/-- Witness for C8 at the concrete values 125 and 126. -/
theorem channel_from_number_range_witness :
    Channel.from_number 125 = .ok ⟨125⟩ ∧
    Channel.from_number 126 = .error .InvalidArgument :=
  ⟨(channel_from_number_range 125).1 (by decide),
   (channel_from_number_range 126).2 (by decide)⟩

/-- C4: on every successful `send_packet` call (bulk write succeeded, the
device answered with a status byte `b` and payload bytes `t`), `Ack.length`
is the total read count minus the one status byte — an expression independent
of the caller's buffer `buf` — and the payload area of the 33-byte receive
buffer is copied into `buf` up to `min buf.length 32` bytes, silently
truncating whenever `buf` is shorter than the received payload (the part of
`buf` beyond index 32 is left untouched). -/
theorem send_packet_length_and_truncation (b : Nat) (t data buf : List Nat) :
    Crazyradio.send_packet (.ok ()) (.ok (b :: t)) data buf =
      .ret (.ok { received := (b &&& 0x01) != 0
                  power_detector := (b &&& 0x02) != 0
                  retry := (b &&& 0xf0) >>> 4
                  length := (b :: t).length - 1 },
        ((received_buffer (b :: t)).drop 1).take (min buf.length 32) ++ buf.drop 32,
        [.bulkWrite 0x01 data, .bulkRead 0x81]) := by
  simpa using send_packet_cons_eq b t data buf

/-- C5: `send_packet` decodes the ack status byte with bit 0 as `received`,
bit 1 as `power_detector` and bits 4 to 7 as `retry`; in particular the
status byte 0b01010001 decodes to received, no power detector, 5 retries. -/
theorem ack_status_decoding :
    (∀ (s : Nat) (rest data buf : List Nat),
      ackOf (Crazyradio.send_packet (.ok ()) (.ok (s :: rest)) data buf) =
        some { received := (s &&& 0x01) != 0
               power_detector := (s &&& 0x02) != 0
               retry := (s &&& 0xf0) >>> 4
               length := rest.length }) ∧
    ackOf (Crazyradio.send_packet (.ok ()) (.ok [0b01010001]) [] []) =
      some { received := true, power_detector := false, retry := 5, length := 0 } := by
  constructor
  · intro s rest data buf
    rw [send_packet_cons_eq]
    rfl
  · rw [send_packet_cons_eq]
    rfl

/-- C9: `send_packet` returns normally only when the inbound bulk read yields
at least one byte: a zero-byte read underflows `received - 1` and panics
instead of returning an `Ack` or an `Error`; for reads of 1..33 bytes the
payload copy succeeds within bounds for every caller buffer size (the call
returns, and the caller's buffer keeps its length). -/
theorem send_packet_zero_read_safety :
    (∀ data buf : List Nat,
      Crazyradio.send_packet (.ok ()) (.ok []) data buf = .panics) ∧
    (∀ (b : Nat) (t data buf : List Nat), (b :: t).length ≤ 33 →
      ∃ a newBuf,
        Crazyradio.send_packet (.ok ()) (.ok (b :: t)) data buf =
          .ret (.ok a, newBuf, [.bulkWrite 0x01 data, .bulkRead 0x81]) ∧
        a.length = (b :: t).length - 1 ∧ newBuf.length = buf.length) := by
  constructor
  · intro data buf
    unfold Crazyradio.send_packet
    by_cases h : buf.length ≤ 32
    · have h2 : buf.length + 1 ≤ 33 := by omega
      simp [h, slice, copy_from_slice, received_buffer, h2]
    · have h2 : 32 ≤ buf.length := by omega
      simp [h, slice, copy_from_slice, received_buffer, h2]
  · intro b t data buf _
    refine ⟨_, _, send_packet_cons_eq b t data buf, by simp, ?_⟩
    have h33 := received_buffer_length (b :: t)
    simp only [List.length_append, List.length_take, List.length_drop, h33]
    omega

/-- Witness for C9 at a zero-byte and a two-byte read. -/
theorem send_packet_zero_read_safety_witness :
    Crazyradio.send_packet (.ok ()) (.ok []) [0xff] [0, 0] = .panics ∧
    (∃ a newBuf,
      Crazyradio.send_packet (.ok ()) (.ok [0x51, 0x07]) [0xff] [0, 0] =
        .ret (.ok a, newBuf, [.bulkWrite 0x01 [0xff], .bulkRead 0x81]) ∧
      a.length = ([0x51, 0x07] : List Nat).length - 1 ∧ newBuf.length = ([0, 0] : List Nat).length) :=
  ⟨send_packet_zero_read_safety.1 [0xff] [0, 0],
   send_packet_zero_read_safety.2 0x51 [0x07] [0xff] [0, 0] (by decide)⟩

/-- C2: with caching enabled, setting the channel, address or datarate to the
cached value issues no transfer, succeeds, and leaves the driver state
unchanged; with caching disabled, each of the three setters issues exactly
one control transfer on every call, whatever the requested value and the
transfer outcome. -/
theorem cached_setters_cache_discipline (st : Crazyradio) (res : Except RusbError Unit)
    (ch : Channel) (addr : List Nat) (dr : Datarate) :
    (Crazyradio.set_channel res { st with cache_settings := true } st.channel =
        (.ok (), { st with cache_settings := true }, []) ∧
      Crazyradio.set_address res { st with cache_settings := true } st.address =
        (.ok (), { st with cache_settings := true }, []) ∧
      Crazyradio.set_datarate res { st with cache_settings := true } st.datarate =
        (.ok (), { st with cache_settings := true }, [])) ∧
    ((Crazyradio.set_channel res { st with cache_settings := false } ch).2.2 =
        [.control 0x40 0x01 ch.val 0 []] ∧
      (Crazyradio.set_address res { st with cache_settings := false } addr).2.2 =
        [.control 0x40 0x02 0 0 addr] ∧
      (Crazyradio.set_datarate res { st with cache_settings := false } dr).2.2 =
        [.control 0x40 0x03 dr.toNat 0 []]) := by
  refine ⟨⟨?_, ?_, ?_⟩, ⟨?_, ?_, ?_⟩⟩ <;>
    cases res <;>
      simp [Crazyradio.set_channel, Crazyradio.set_address, Crazyradio.set_datarate,
        UsbCommand.toNat]

/-- C3: a cached-setter call whose control transfer fails leaves the cached
channel, address and datarate exactly as they were (the whole driver state is
unchanged), and whenever the call did issue a transfer the transport error is
propagated to the caller. -/
theorem failed_setter_preserves_cache (st : Crazyradio) (e : RusbError)
    (ch : Channel) (addr : List Nat) (dr : Datarate) :
    ((Crazyradio.set_channel (.error e) st ch).2.1 = st ∧
      ((Crazyradio.set_channel (.error e) st ch).2.2 ≠ [] →
        (Crazyradio.set_channel (.error e) st ch).1 = .error (.UsbError e))) ∧
    ((Crazyradio.set_address (.error e) st addr).2.1 = st ∧
      ((Crazyradio.set_address (.error e) st addr).2.2 ≠ [] →
        (Crazyradio.set_address (.error e) st addr).1 = .error (.UsbError e))) ∧
    ((Crazyradio.set_datarate (.error e) st dr).2.1 = st ∧
      ((Crazyradio.set_datarate (.error e) st dr).2.2 ≠ [] →
        (Crazyradio.set_datarate (.error e) st dr).1 = .error (.UsbError e))) := by
  refine ⟨⟨?_, ?_⟩, ⟨?_, ?_⟩, ⟨?_, ?_⟩⟩ <;>
    · simp only [Crazyradio.set_channel, Crazyradio.set_address, Crazyradio.set_datarate]
      split <;> simp

/-- Witness for C3: a failing transfer on each setter with caching disabled. -/
theorem failed_setter_preserves_cache_witness :
    (Crazyradio.set_channel (.error ⟨3⟩) ⟨false, ⟨2⟩, [0xe7, 0xe7, 0xe7, 0xe7, 0xe7], .Dr2M⟩ ⟨7⟩).2.1 =
      ⟨false, ⟨2⟩, [0xe7, 0xe7, 0xe7, 0xe7, 0xe7], .Dr2M⟩ ∧
    (Crazyradio.set_channel (.error ⟨3⟩) ⟨false, ⟨2⟩, [0xe7, 0xe7, 0xe7, 0xe7, 0xe7], .Dr2M⟩ ⟨7⟩).1 =
      .error (.UsbError ⟨3⟩) ∧
    (Crazyradio.set_address (.error ⟨3⟩) ⟨false, ⟨2⟩, [0xe7, 0xe7, 0xe7, 0xe7, 0xe7], .Dr2M⟩ [1, 2, 3, 4, 5]).1 =
      .error (.UsbError ⟨3⟩) ∧
    (Crazyradio.set_datarate (.error ⟨3⟩) ⟨false, ⟨2⟩, [0xe7, 0xe7, 0xe7, 0xe7, 0xe7], .Dr2M⟩ .Dr1M).1 =
      .error (.UsbError ⟨3⟩) := by
  obtain ⟨⟨h1, h2⟩, ⟨_, h3⟩, ⟨_, h4⟩⟩ :=
    failed_setter_preserves_cache ⟨false, ⟨2⟩, [0xe7, 0xe7, 0xe7, 0xe7, 0xe7], .Dr2M⟩ ⟨3⟩
      ⟨7⟩ [1, 2, 3, 4, 5] .Dr1M
  exact ⟨h1, h2 (by decide), h3 (by decide), h4 (by decide)⟩

/-- C1 counterexample: the requested delay 0 ms is at most 4000 ms, yet the
call does not issue a control transfer with encoded value floor(0/250) - 1:
the u16 subtraction underflows, so checked arithmetic panics and no transfer
is attempted — refuting both the universal encoding statement and the
monotonicity of the encoded index over the whole of [0, 4000]. -/
theorem set_ard_time_claim_counterexample :
    (0 : Nat) ≤ 4000 ∧
    Crazyradio.set_ard_time (.ok ()) 0 = .panics ∧
    ard_trace (Crazyradio.set_ard_time (.ok ()) 0) = [] :=
  ⟨by decide, by rfl, by rfl⟩

/-- C1 as amended: for every requested delay of 250..4000 ms, `set_ard_time`
encodes the ARD register value as floor(delay_ms/250) - 1 and issues the
control transfer with that value, the encoded step index is monotonically
non-decreasing in the requested delay over [250, 4000] ms, and every delay
above 4000 ms fails with InvalidArgument before any transfer is attempted;
delays below 250 ms underflow the u16 subtraction instead of being encoded. -/
theorem set_ard_time_encoding (res : Except RusbError Unit) (d e : Nat) :
    (250 ≤ d → d ≤ 4000 →
      Crazyradio.set_ard_time (.ok ()) d =
        .ret (.ok (), [.control 0x40 0x05 (d / 250 - 1) 0 []]) ∧
      ard_trace (Crazyradio.set_ard_time res d) =
        [.control 0x40 0x05 (d / 250 - 1) 0 []] ∧
      (∀ d', d ≤ d' → d' ≤ 4000 → d / 250 - 1 ≤ d' / 250 - 1)) ∧
    (4000 < e → Crazyradio.set_ard_time res e = .ret (.error .InvalidArgument, [])) := by
  constructor
  · intro h1 h2
    have hz : ¬d / 250 = 0 := by
      rw [Nat.div_eq_zero_iff (by norm_num)]
      omega
    refine ⟨?_, ?_, ?_⟩
    · rw [Crazyradio.set_ard_time, if_pos h2, if_neg hz]
      rfl
    · rw [Crazyradio.set_ard_time.eq_def, if_pos h2, if_neg hz]
      cases res <;> rfl
    · intro d' hd hd'
      exact Nat.sub_le_sub_right (Nat.div_le_div_right hd) 1
  · intro h
    rw [Crazyradio.set_ard_time.eq_def, if_neg (by omega)]

/-- Witness for the amended C1 at delays 250 ms, 4000 ms and 4001 ms. -/
theorem set_ard_time_encoding_witness :
    Crazyradio.set_ard_time (.ok ()) 250 = .ret (.ok (), [.control 0x40 0x05 0 0 []]) ∧
    (250 : Nat) / 250 - 1 ≤ (4000 : Nat) / 250 - 1 ∧
    Crazyradio.set_ard_time (.ok ()) 4001 = .ret (.error .InvalidArgument, []) := by
  obtain ⟨h1, h2⟩ := set_ard_time_encoding (.ok ()) 250 4001
  obtain ⟨ha, _, hc⟩ := h1 (by decide) (by decide)
  exact ⟨by rw [ha], hc 4000 (by decide) (by decide), h2 (by decide)⟩

/-- Characterisation of `reset`: either every one of its eight writes
succeeds, the call returns `ok` and the cache flag is restored to its value
before the call, or some write fails, the call returns the transport error
and the cache flag is left at `false`. -/
lemma reset_main (env : Nat → Except RusbError Unit) (st : Crazyradio) :
    ((∀ k, k < 8 → env k = .ok ()) ∧ (Crazyradio.reset env st).1 = .ok () ∧
      (Crazyradio.reset env st).2.1.cache_settings = st.cache_settings) ∨
    ((∃ k, k < 8 ∧ ∃ r, env k = .error r) ∧
      (∃ r, (Crazyradio.reset env st).1 = .error (.UsbError r)) ∧
      (Crazyradio.reset env st).2.1.cache_settings = false) := by
  rcases h0 : env 0 with e0 | ⟨⟩
  · exact Or.inr ⟨⟨0, by omega, e0, h0⟩, ⟨e0, by
      simp [Crazyradio.reset, andThen, Crazyradio.set_datarate, h0]⟩, by
      simp [Crazyradio.reset, andThen, Crazyradio.set_datarate, h0]⟩
  rcases h1 : env 1 with e1 | ⟨⟩
  · exact Or.inr ⟨⟨1, by omega, e1, h1⟩, ⟨e1, by
      simp [Crazyradio.reset, andThen, Crazyradio.set_datarate, Crazyradio.set_channel, h0, h1]⟩, by
      simp [Crazyradio.reset, andThen, Crazyradio.set_datarate, Crazyradio.set_channel, h0, h1]⟩
  rcases h2 : env 2 with e2 | ⟨⟩
  · exact Or.inr ⟨⟨2, by omega, e2, h2⟩, ⟨e2, by
      simp [Crazyradio.reset, andThen, Crazyradio.set_datarate, Crazyradio.set_channel,
        Crazyradio.set_cont_carrier, h0, h1, h2]⟩, by
      simp [Crazyradio.reset, andThen, Crazyradio.set_datarate, Crazyradio.set_channel,
        Crazyradio.set_cont_carrier, h0, h1, h2]⟩
  rcases h3 : env 3 with e3 | ⟨⟩
  · exact Or.inr ⟨⟨3, by omega, e3, h3⟩, ⟨e3, by
      simp [Crazyradio.reset, andThen, Crazyradio.set_datarate, Crazyradio.set_channel,
        Crazyradio.set_cont_carrier, Crazyradio.set_address, h0, h1, h2, h3]⟩, by
      simp [Crazyradio.reset, andThen, Crazyradio.set_datarate, Crazyradio.set_channel,
        Crazyradio.set_cont_carrier, Crazyradio.set_address, h0, h1, h2, h3]⟩
  rcases h4 : env 4 with e4 | ⟨⟩
  · exact Or.inr ⟨⟨4, by omega, e4, h4⟩, ⟨e4, by
      simp [Crazyradio.reset, andThen, Crazyradio.set_datarate, Crazyradio.set_channel,
        Crazyradio.set_cont_carrier, Crazyradio.set_address, Crazyradio.set_power,
        h0, h1, h2, h3, h4]⟩, by
      simp [Crazyradio.reset, andThen, Crazyradio.set_datarate, Crazyradio.set_channel,
        Crazyradio.set_cont_carrier, Crazyradio.set_address, Crazyradio.set_power,
        h0, h1, h2, h3, h4]⟩
  rcases h5 : env 5 with e5 | ⟨⟩
  · exact Or.inr ⟨⟨5, by omega, e5, h5⟩, ⟨e5, by
      simp [Crazyradio.reset, andThen, Crazyradio.set_datarate, Crazyradio.set_channel,
        Crazyradio.set_cont_carrier, Crazyradio.set_address, Crazyradio.set_power,
        Crazyradio.set_arc, h0, h1, h2, h3, h4, h5]⟩, by
      simp [Crazyradio.reset, andThen, Crazyradio.set_datarate, Crazyradio.set_channel,
        Crazyradio.set_cont_carrier, Crazyradio.set_address, Crazyradio.set_power,
        Crazyradio.set_arc, h0, h1, h2, h3, h4, h5]⟩
  rcases h6 : env 6 with e6 | ⟨⟩
  · exact Or.inr ⟨⟨6, by omega, e6, h6⟩, ⟨e6, by
      simp [Crazyradio.reset, andThen, Crazyradio.set_datarate, Crazyradio.set_channel,
        Crazyradio.set_cont_carrier, Crazyradio.set_address, Crazyradio.set_power,
        Crazyradio.set_arc, Crazyradio.set_ard_bytes, h0, h1, h2, h3, h4, h5, h6]⟩, by
      simp [Crazyradio.reset, andThen, Crazyradio.set_datarate, Crazyradio.set_channel,
        Crazyradio.set_cont_carrier, Crazyradio.set_address, Crazyradio.set_power,
        Crazyradio.set_arc, Crazyradio.set_ard_bytes, h0, h1, h2, h3, h4, h5, h6]⟩
  rcases h7 : env 7 with e7 | ⟨⟩
  · exact Or.inr ⟨⟨7, by omega, e7, h7⟩, ⟨e7, by
      simp [Crazyradio.reset, andThen, Crazyradio.set_datarate, Crazyradio.set_channel,
        Crazyradio.set_cont_carrier, Crazyradio.set_address, Crazyradio.set_power,
        Crazyradio.set_arc, Crazyradio.set_ard_bytes, Crazyradio.set_ack_enable,
        h0, h1, h2, h3, h4, h5, h6, h7]⟩, by
      simp [Crazyradio.reset, andThen, Crazyradio.set_datarate, Crazyradio.set_channel,
        Crazyradio.set_cont_carrier, Crazyradio.set_address, Crazyradio.set_power,
        Crazyradio.set_arc, Crazyradio.set_ard_bytes, Crazyradio.set_ack_enable,
        h0, h1, h2, h3, h4, h5, h6, h7]⟩
  refine Or.inl ⟨?_, ?_, ?_⟩
  · intro k hk
    interval_cases k <;> assumption
  · simp [Crazyradio.reset, andThen, Crazyradio.set_datarate, Crazyradio.set_channel,
      Crazyradio.set_cont_carrier, Crazyradio.set_address, Crazyradio.set_power,
      Crazyradio.set_arc, Crazyradio.set_ard_bytes, Crazyradio.set_ack_enable,
      h0, h1, h2, h3, h4, h5, h6, h7]
  · simp [Crazyradio.reset, andThen, Crazyradio.set_datarate, Crazyradio.set_channel,
      Crazyradio.set_cont_carrier, Crazyradio.set_address, Crazyradio.set_power,
      Crazyradio.set_arc, Crazyradio.set_ard_bytes, Crazyradio.set_ack_enable,
      h0, h1, h2, h3, h4, h5, h6, h7]

/-- C10: `reset` returns `ok` exactly when all eight of its parameter writes
succeed; on any failing write it returns the error with the
settings-cache-enabled flag left at `false`, regardless of the flag's value
before the call; the previous flag value is restored exactly in the
all-writes-succeeded case. -/
theorem reset_restores_cache_flag_only_on_success (env : Nat → Except RusbError Unit)
    (st : Crazyradio) :
    ((Crazyradio.reset env st).1 = .ok () ↔ ∀ k, k < 8 → env k = .ok ()) ∧
    (∀ e, (Crazyradio.reset env st).1 = .error e →
      (Crazyradio.reset env st).2.1.cache_settings = false) ∧
    ((Crazyradio.reset env st).1 = .ok () →
      (Crazyradio.reset env st).2.1.cache_settings = st.cache_settings) := by
  rcases reset_main env st with ⟨ha, hb, hc⟩ | ⟨⟨k, hk, r, hr⟩, ⟨r', hr'⟩, hc⟩
  · refine ⟨⟨fun _ => ha, fun _ => hb⟩, ?_, fun _ => hc⟩
    intro e he
    rw [hb] at he
    cases he
  · refine ⟨⟨?_, ?_⟩, fun e _ => hc, ?_⟩
    · intro hok
      rw [hok] at hr'
      cases hr'
    · intro hall
      have := hall k hk
      rw [hr] at this
      cases this
    · intro hok
      rw [hok] at hr'
      cases hr'

/-- Witness for C10: all eight writes succeeding restores the flag; a failure
of the fourth write leaves it cleared. -/
theorem reset_restores_cache_flag_witness :
    (Crazyradio.reset (fun _ => .ok ()) ⟨true, ⟨42⟩, [1, 2, 3, 4, 5], .Dr1M⟩).1 = .ok () ∧
    (Crazyradio.reset (fun _ => .ok ()) ⟨true, ⟨42⟩, [1, 2, 3, 4, 5], .Dr1M⟩).2.1.cache_settings = true ∧
    (Crazyradio.reset (fun k => if k = 3 then .error ⟨9⟩ else .ok ())
        ⟨true, ⟨42⟩, [1, 2, 3, 4, 5], .Dr1M⟩).2.1.cache_settings = false := by
  obtain ⟨h1, _, h3⟩ :=
    reset_restores_cache_flag_only_on_success (fun _ => .ok ()) ⟨true, ⟨42⟩, [1, 2, 3, 4, 5], .Dr1M⟩
  obtain ⟨g1, g2, _⟩ :=
    reset_restores_cache_flag_only_on_success (fun k => if k = 3 then .error ⟨9⟩ else .ok ())
      ⟨true, ⟨42⟩, [1, 2, 3, 4, 5], .Dr1M⟩
  have hok := h1.mpr (fun k _ => rfl)
  refine ⟨hok, h3 hok, ?_⟩
  rcases hres : (Crazyradio.reset (fun k => if k = 3 then .error ⟨9⟩ else .ok ())
      ⟨true, ⟨42⟩, [1, 2, 3, 4, 5], .Dr1M⟩).1 with e | ⟨⟩
  · exact g2 e hres
  · have := g1.mp hres 3 (by omega)
    simp at this

/-- C7: given that device discovery, open and interface claim succeed, each
of `open_first`, `open_nth` and `open_by_serial` fails with the
`DongleVersionNotSupported` condition exactly when the device revision
`major + minor/10 + sub_minor/100` is below the fixed minimum 0.5. -/
theorem open_unsupported_version_iff (env : OpenEnv) (nth : Nat) (serial : String)
    (hf : env.findResult = .found) (hd : env.descResult = .ok ())
    (ho : env.openResult = .ok ()) (hc : env.claimResult = .ok ()) :
    (Crazyradio.open_first env = .error .DongleVersionNotSupported ↔
      version_value env.major env.minor env.subMinor < 1 / 2) ∧
    (Crazyradio.open_nth env nth = .error .DongleVersionNotSupported ↔
      version_value env.major env.minor env.subMinor < 1 / 2) ∧
    (Crazyradio.open_by_serial env serial = .error .DongleVersionNotSupported ↔
      version_value env.major env.minor env.subMinor < 1 / 2) := by
  have hng : Crazyradio.open_generic env =
      if version_value env.major env.minor env.subMinor < 1 / 2 then
        .error .DongleVersionNotSupported
      else
        match Crazyradio.reset env.resetEnv boot_state with
        | (.ok _, cr, _) => .ok cr
        | (.error e, _, _) => .error e := by
    unfold Crazyradio.open_generic
    rw [hf, hd, ho, hc]
  have key : Crazyradio.open_generic env = .error .DongleVersionNotSupported ↔
      version_value env.major env.minor env.subMinor < 1 / 2 := by
    rw [hng]
    by_cases hv : version_value env.major env.minor env.subMinor < 1 / 2
    · rw [if_pos hv]
      simp only [eq_self_iff_true, true_iff]
      exact hv
    · rw [if_neg hv]
      rcases hres : Crazyradio.reset env.resetEnv boot_state with ⟨r, cr', tr⟩
      rcases reset_main env.resetEnv boot_state with ⟨-, hb, -⟩ | ⟨-, ⟨rr, hrr⟩, -⟩
      · rw [hres] at hb
        simp only at hb
        rw [hb]
        constructor
        · intro h
          simp at h
        · intro h
          exact absurd h hv
      · rw [hres] at hrr
        simp only at hrr
        rw [hrr]
        constructor
        · intro h
          simp at h
        · intro h
          exact absurd h hv
  exact ⟨key, key, key⟩

/-- Witness for C7 at a found, opened, claimed device with revision 0.4.0 and
one with revision 1.0.0. -/
theorem open_unsupported_version_iff_witness :
    (Crazyradio.open_first
        { findResult := .found, descResult := .ok (), openResult := .ok (),
          claimResult := .ok (), major := 0, minor := 4, subMinor := 0,
          resetEnv := fun _ => .ok () } = .error .DongleVersionNotSupported ↔
      version_value 0 4 0 < 1 / 2) ∧
    (Crazyradio.open_nth
        { findResult := .found, descResult := .ok (), openResult := .ok (),
          claimResult := .ok (), major := 1, minor := 0, subMinor := 0,
          resetEnv := fun _ => .ok () } 0 = .error .DongleVersionNotSupported ↔
      version_value 1 0 0 < 1 / 2) := by
  refine ⟨?_, ?_⟩
  · exact (open_unsupported_version_iff
      { findResult := .found, descResult := .ok (), openResult := .ok (),
        claimResult := .ok (), major := 0, minor := 4, subMinor := 0,
        resetEnv := fun _ => .ok () } 0 "" rfl rfl rfl rfl).1
  · exact (open_unsupported_version_iff
      { findResult := .found, descResult := .ok (), openResult := .ok (),
        claimResult := .ok (), major := 1, minor := 0, subMinor := 0,
        resetEnv := fun _ => .ok () } 0 "" rfl rfl rfl rfl).2.1

/-- A `set_channel` call whose transfer (if any) succeeds returns `ok`. -/
lemma set_channel_ok_shape (st : Crazyradio) (c : Channel) :
    ∃ st1 tr1, Crazyradio.set_channel (.ok ()) st c = (.ok (), st1, tr1) := by
  unfold Crazyradio.set_channel
  split
  · exact ⟨_, _, rfl⟩
  · exact ⟨_, _, rfl⟩

/-- When every transfer succeeds and every bulk read yields at least one
byte, the scan loop starting at channel `ch` with `fuel` remaining
iterations returns `scan_hits` and performs the `scan_calls` call pairs. -/
lemma scan_from_all_ok (env : ScanEnv) (packet : List Nat)
    (hset : ∀ i, env.setRes i = .ok ()) (hw : ∀ i, env.writeRes i = .ok ())
    (hr : ∀ i, ∃ b t, env.readRes i = .ok (b :: t)) :
    ∀ (fuel ch i : Nat) (st : Crazyradio) (buf : List Nat), ch + fuel ≤ 126 →
      ∃ st' tr, Crazyradio.scan_from env st packet buf ch fuel i =
        .ret (.ok (scan_hits env.readRes ch i fuel), st', tr, scan_calls ch fuel) := by
  intro fuel
  induction fuel with
  | zero =>
    intro ch i st buf _
    exact ⟨st, [], rfl⟩
  | succ f ih =>
    intro ch i st buf h
    have hch : ch < 126 := by omega
    have hfn : Channel.from_number ch = .ok ⟨ch⟩ := by
      simp [Channel.from_number, hch]
    obtain ⟨b, t, hbt⟩ := hr i
    obtain ⟨st1, tr1, hst1⟩ := set_channel_ok_shape st ⟨ch⟩
    obtain ⟨st2, tr3, hrec⟩ := ih (ch + 1) (i + 1) st1
      (((received_buffer (b :: t)).drop 1).take (min buf.length 32) ++ buf.drop 32)
      (by omega)
    refine ⟨st2, tr1 ++ [.bulkWrite 0x01 packet, .bulkRead 0x81] ++ tr3, ?_⟩
    rw [Crazyradio.scan_from.eq_def]
    simp only [hfn, hset i, hst1, hw i, hbt, send_packet_cons_eq, hrec]
    rw [scan_hits, scan_calls, hbt]
    simp [ackBit]

/-- Membership in `scan_hits`: exactly the channels of the scanned window
whose bulk read decodes to a received ack. -/
lemma scan_hits_mem (reads : Nat → Except RusbError (List Nat)) :
    ∀ (fuel ch i : Nat) (c : Channel),
      c ∈ scan_hits reads ch i fuel ↔
        ch ≤ c.val ∧ c.val < ch + fuel ∧ ackBit (reads (i + (c.val - ch))) = true := by
  intro fuel
  induction fuel with
  | zero =>
    intro ch i c
    simp [scan_hits]
    omega
  | succ f ih =>
    intro ch i c
    rw [scan_hits]
    by_cases hb : ackBit (reads i) = true
    · rw [if_pos hb]
      simp only [List.mem_cons, ih (ch + 1) (i + 1) c]
      constructor
      · rintro (rfl | ⟨h1, h2, h3⟩)
        · exact ⟨le_refl _, by show ch < ch + (f + 1); omega, by simpa using hb⟩
        · refine ⟨by omega, by omega, ?_⟩
          rwa [show i + 1 + (c.val - (ch + 1)) = i + (c.val - ch) by omega] at h3
      · rintro ⟨h1, h2, h3⟩
        rcases Nat.eq_or_lt_of_le h1 with heq | hlt
        · left
          cases c
          simp only at heq
          rw [← heq]
        · right
          refine ⟨by omega, by omega, ?_⟩
          rwa [show i + 1 + (c.val - (ch + 1)) = i + (c.val - ch) by omega]
    · rw [if_neg hb]
      rw [ih (ch + 1) (i + 1) c]
      constructor
      · rintro ⟨h1, h2, h3⟩
        refine ⟨by omega, by omega, ?_⟩
        rwa [show i + 1 + (c.val - (ch + 1)) = i + (c.val - ch) by omega] at h3
      · rintro ⟨h1, h2, h3⟩
        rcases Nat.eq_or_lt_of_le h1 with heq | hlt
        · exfalso
          rw [show i + (c.val - ch) = i by omega] at h3
          exact hb h3
        · refine ⟨by omega, by omega, ?_⟩
          rwa [show i + 1 + (c.val - (ch + 1)) = i + (c.val - ch) by omega]

/-- The channels recorded by the scan loop are in strictly ascending order
(hence contain no duplicates). -/
lemma scan_hits_pairwise (reads : Nat → Except RusbError (List Nat)) :
    ∀ (fuel ch i : Nat),
      List.Pairwise (fun a b : Channel => a.val < b.val) (scan_hits reads ch i fuel) := by
  intro fuel
  induction fuel with
  | zero =>
    intro ch i
    simp [scan_hits]
  | succ f ih =>
    intro ch i
    rw [scan_hits]
    by_cases hb : ackBit (reads i) = true
    · rw [if_pos hb]
      refine List.Pairwise.cons ?_ (ih (ch + 1) (i + 1))
      intro c hmem
      have := (scan_hits_mem reads f (ch + 1) (i + 1) c).mp hmem
      show ch < c.val
      omega
    · rw [if_neg hb]
      exact ih (ch + 1) (i + 1)

/-- C6: for `start ≤ stop` (both valid channels), when every transfer
succeeds, `scan_channels` performs exactly one (set-channel, send-packet)
call pair per channel of the inclusive range, in ascending channel order
(`scan_calls start.val (stop.val + 1 - start.val)`), and returns — in
strictly ascending order, hence without duplicates — exactly those channels
whose ack had `received = true`. -/
theorem scan_channels_ascending_filter (env : ScanEnv) (st : Crazyradio)
    (start stop : Channel) (packet : List Nat)
    (hstop : stop.val < 126) (hord : start.val ≤ stop.val)
    (hset : ∀ i, env.setRes i = .ok ()) (hw : ∀ i, env.writeRes i = .ok ())
    (hr : ∀ i, ∃ b t, env.readRes i = .ok (b :: t)) :
    ∃ L st' tr,
      Crazyradio.scan_channels env st start stop packet =
        .ret (.ok L, st', tr, scan_calls start.val (stop.val + 1 - start.val)) ∧
      (∀ c : Channel, c ∈ L ↔
        start.val ≤ c.val ∧ c.val ≤ stop.val ∧
          ackBit (env.readRes (c.val - start.val)) = true) ∧
      List.Pairwise (fun a b : Channel => a.val < b.val) L := by
  obtain ⟨st', tr, hs⟩ := scan_from_all_ok env packet hset hw hr
    (stop.val + 1 - start.val) start.val 0 st (List.replicate 32 0) (by omega)
  refine ⟨_, st', tr, hs, ?_, scan_hits_pairwise _ _ _ _⟩
  intro c
  rw [scan_hits_mem]
  constructor
  · rintro ⟨h1, h2, h3⟩
    exact ⟨h1, by omega, by simpa using h3⟩
  · rintro ⟨h1, h2, h3⟩
    exact ⟨h1, by omega, by simpa using h3⟩

/-- Witness for C6: scanning channels 0..2 with acks received on channels 0
and 2 only. -/
theorem scan_channels_ascending_filter_witness :
    ∃ L st' tr,
      Crazyradio.scan_channels
          { setRes := fun _ => .ok (), writeRes := fun _ => .ok (),
            readRes := fun i => if i = 1 then .ok [0] else .ok [1] }
          ⟨true, ⟨2⟩, [0xe7, 0xe7, 0xe7, 0xe7, 0xe7], .Dr2M⟩ ⟨0⟩ ⟨2⟩ [0xff] =
        .ret (.ok L, st', tr, scan_calls 0 3) ∧
      (∀ c : Channel, c ∈ L ↔
        0 ≤ c.val ∧ c.val ≤ 2 ∧
          ackBit (if c.val - 0 = 1 then .ok [0] else .ok [1]) = true) ∧
      List.Pairwise (fun a b : Channel => a.val < b.val) L := by
  obtain ⟨L, st', tr, h1, h2, h3⟩ := scan_channels_ascending_filter
    { setRes := fun _ => .ok (), writeRes := fun _ => .ok (),
      readRes := fun i => if i = 1 then .ok [0] else .ok [1] }
    ⟨true, ⟨2⟩, [0xe7, 0xe7, 0xe7, 0xe7, 0xe7], .Dr2M⟩ ⟨0⟩ ⟨2⟩ [0xff]
    (by decide) (by decide) (fun i => rfl) (fun i => rfl)
    (fun i => if h : i = 1 then ⟨0, [], by simp [h]⟩ else ⟨1, [], by simp [h]⟩)
  exact ⟨L, st', tr, h1, h2, h3⟩

end CR
